import Mathlib

/-!
Verification of the WebCrawling-App contact-enrichment crawler.

Shallow embedding of the crawl pipeline: captcha detection
(`lib/captcha.mjs`), SSRF URL gate (`lib/validators/url.mjs`), the fetch
retry/status policy (`lib/fetcher.mjs`), email cleaning, classification and
scoring (`lib/crawler.mjs`, `lib/validators/email.mjs`), the per-site
aggregation loop (`crawlSite` in `lib/crawler.mjs`), and record emission
(`lib/models/ContactRecord.mjs`).  Pure JavaScript string/regex operations
are translated to executable Lean functions over character lists; external
effects (DNS, `net.isIP`, the third-party `email-validator` predicate,
per-URL fetch outcomes) are passed in as explicit parameters.
-/

/-! ## Generic string helpers (JavaScript regex/substring semantics) -/

/-- ASCII lowercasing of one character, as JavaScript `toLowerCase` acts on
the ASCII range used by the crawler's regexes. -/
def lowerChar (c : Char) : Char :=
  if 65 ≤ c.toNat && c.toNat ≤ 90 then Char.ofNat (c.toNat + 32) else c

/-- JavaScript `String.prototype.toLowerCase` (ASCII fragment). -/
def jsToLower (s : String) : String :=
  ⟨s.data.map lowerChar⟩

/-- Whitespace recognized by JavaScript `trim` (ASCII fragment:
space, tab, LF, VT, FF, CR). -/
def isWsChar (c : Char) : Bool :=
  c == ' ' || c.toNat == 9 || c.toNat == 10 || c.toNat == 11 ||
  c.toNat == 12 || c.toNat == 13

/-- JavaScript `String.prototype.trim` (ASCII fragment). -/
def jsTrim (s : String) : String :=
  ⟨((s.data.dropWhile isWsChar).reverse.dropWhile isWsChar).reverse⟩

/-- `startsWithChars hay pat` is true when `pat` is a prefix of `hay`
(character-exact).  Models an anchored `^literal` regex test. -/
def startsWithChars : List Char → List Char → Bool
  | _, [] => true
  | [], _ :: _ => false
  | a :: as, p :: ps => a == p && startsWithChars as ps

/-- `containsChars hay pat` is true when `pat` occurs contiguously inside
`hay`.  Models an unanchored literal regex test / `String.includes`. -/
def containsChars : List Char → List Char → Bool
  | [], pat => pat.isEmpty
  | a :: t, pat => startsWithChars (a :: t) pat || containsChars t pat

/-- Case-sensitive substring test, as JavaScript `String.prototype.includes`. -/
def strContains (s pat : String) : Bool :=
  containsChars s.data pat.data

/-- Case-insensitive substring test, as a `/literal/i` regex test. -/
def strContainsCI (s pat : String) : Bool :=
  containsChars (jsToLower s).data (jsToLower pat).data

/-- Case-sensitive prefix test, as an anchored `/^literal/` regex test. -/
def strStartsWith (s pat : String) : Bool :=
  startsWithChars s.data pat.data

/-- Case-sensitive suffix test, as JavaScript `String.prototype.endsWith`. -/
def strEndsWith (s pat : String) : Bool :=
  startsWithChars s.data.reverse pat.data.reverse

/-- JavaScript `String.prototype.split` with a one-character separator:
always returns a non-empty list of (possibly empty) fragments. -/
def splitChar (sep : Char) : List Char → List (List Char)
  | [] => [[]]
  | c :: t =>
    let r := splitChar sep t
    if c == sep then [] :: r
    else
      match r with
      | h :: t2 => (c :: h) :: t2
      | [] => [[c]]

/-- String-level wrapper for `splitChar`. -/
def splitStr (sep : Char) (s : String) : List String :=
  (splitChar sep s.data).map String.mk

/-! ## Captcha detection (`lib/captcha.mjs`) -/

/-- The nine case-insensitive indicator patterns of `hasCaptcha`. -/
def captchaIndicators : List String :=
  ["recaptcha", "hcaptcha", "cloudflare", "cf-browser-verification",
   "just a moment", "attention required", "challenge-platform",
   "g-recaptcha", "grecaptcha"]

/-- `hasCaptcha(html)`: true when any indicator pattern matches the HTML. -/
def hasCaptcha (html : String) : Bool :=
  captchaIndicators.any (fun p => strContainsCI html p)

/-- `getCaptchaType(html)`: resolves a captcha type in the order
recaptcha → hcaptcha → cloudflare, `none` when no typed pattern matches.
The `just a moment` and `attention required` indicators of `hasCaptcha`
do not appear here. -/
def getCaptchaType (html : String) : Option String :=
  if strContainsCI html "g-recaptcha" || strContainsCI html "grecaptcha"
      || strContainsCI html "recaptcha" then
    some "recaptcha"
  else if strContainsCI html "hcaptcha" then
    some "hcaptcha"
  else if strContainsCI html "cloudflare" || strContainsCI html "cf-browser-verification"
      || strContainsCI html "challenge-platform" then
    some "cloudflare"
  else
    none

/-- Result of `handleCaptcha`: `reason` is `none` when the returned JS
object carries no `reason` key. -/
structure CaptchaResult where
  skip : Bool
  reason : Option String
deriving Repr, DecidableEq

/-- `handleCaptcha(url, html)` (the `url` argument is only logged):
skip with reason when `getCaptchaType` resolves a type, else no skip. -/
def handleCaptcha (html : String) : CaptchaResult :=
  match getCaptchaType html with
  | some t => { skip := true, reason := some ("Captcha detected (" ++ t ++ ")") }
  | none => { skip := false, reason := none }

/-! ## SSRF gate (`lib/validators/url.mjs`) -/

/-- The second dotted component admitted by the RFC1918 pattern
`172\.(1[6-9]|2[0-9]|3[0-1])\.`. -/
def ip172Second : List String :=
  ["16", "17", "18", "19", "20", "21", "22", "23", "24", "25", "26", "27",
   "28", "29", "30", "31"]

/-- `BLOCKED_IP_PATTERNS.some(p => p.test(addr))`: the nine anchored
textual patterns — `^127\.`, `^10\.`, `^172\.(1[6-9]|2[0-9]|3[0-1])\.`,
`^192\.168\.`, `^169\.254\.`, `^::1$`, `^fe80:`, `^fc00:`, `^0\.`. -/
def blockedIpTest (addr : String) : Bool :=
  strStartsWith addr "127." || strStartsWith addr "10." ||
  ip172Second.any (fun s => strStartsWith addr ("172." ++ s ++ ".")) ||
  strStartsWith addr "192.168." || strStartsWith addr "169.254." ||
  addr == "::1" || strStartsWith addr "fe80:" || strStartsWith addr "fc00:" ||
  strStartsWith addr "0."

/-- Result of `isSafeUrl`. -/
structure SafeResult where
  safe : Bool
  reason : Option String
deriving Repr, DecidableEq

/-- `isSafeUrl(url)` after URL parsing, over the parsed components:
`protocol` and `hostname` come from `new URL(url)`; `hostIsIP` is the value
of `net.isIP(hostname)` coerced to a boolean; `dns4` is the outcome of
`dns.resolve4(hostname)` (`none` when resolution failed, which the code
treats as non-fatal and allows).  Note that for IPv6-literal URLs the
WHATWG `hostname` keeps its brackets (`"[fc00::1]"`), and `net.isIP` of
such a string is `0`. -/
def isSafeUrl (protocol hostname : String) (hostIsIP : Bool)
    (dns4 : Option (List String)) : SafeResult :=
  if !(protocol == "http:" || protocol == "https:") then
    { safe := false, reason := some "Invalid protocol (only HTTP/HTTPS allowed)" }
  else if hostIsIP && blockedIpTest hostname then
    { safe := false, reason := some "Private IP address blocked" }
  else
    match dns4 with
    | some addrs =>
      if addrs.any blockedIpTest then
        { safe := false, reason := some "Domain resolves to private IP" }
      else
        { safe := true, reason := none }
    | none => { safe := true, reason := none }

/-- Value of one hexadecimal digit. -/
def hexDigitVal (c : Char) : Option Nat :=
  if 48 ≤ c.toNat && c.toNat ≤ 57 then some (c.toNat - 48)
  else if 97 ≤ c.toNat && c.toNat ≤ 102 then some (c.toNat - 87)
  else if 65 ≤ c.toNat && c.toNat ≤ 70 then some (c.toNat - 55)
  else none

/-- First hextet (16-bit group before the first colon) of an IPv6 literal,
`none` when the leading group is not 1–4 hex digits. -/
def firstHextet (addr : String) : Option Nat :=
  let digits := addr.data.takeWhile (fun c => !(c == ':'))
  if digits.length == 0 || 4 < digits.length then none
  else
    digits.foldl
      (fun acc c =>
        match acc, hexDigitVal c with
        | some a, some d => some (a * 16 + d)
        | _, _ => none)
      (some 0)

/-- Modelled from the spec: membership of an IPv6 literal in the
unique-local range `fc00::/7` of the claim, decided on the textual first
hextet — the top byte must be `0xfc` or `0xfd`. -/
def specUniqueLocal (addr : String) : Bool :=
  match firstHextet addr with
  | some h => h / 256 == 252 || h / 256 == 253
  | none => false

/-- A faithfulness condition on any model of the Node builtin `net.isIP`:
the textual IP formats it recognizes (bare dotted-decimal IPv4,
hex-and-colon IPv6) contain no bracket, so the bracketed hostnames that
the WHATWG URL parser produces for IPv6 literals (`new
URL("http://[fc00::1]/").hostname` is `"[fc00::1]"`) are never classified
as IP addresses. -/
def isIPNoBrackets (isip : String → Bool) : Prop :=
  ∀ s : String, (s.data.contains '[') = true → isip s = false

/-! ## Fetch retry/status policy (`lib/fetcher.mjs`) -/

/-- `res.ok` of the WHATWG fetch response: status in the 2xx range. -/
def statusOk (status : Nat) : Bool :=
  200 ≤ status && status ≤ 299

/-- Decision taken by one `fetchHtml` invocation after the HTTP response
arrives (timeouts and network failures reject earlier and are out of this
function's branch structure). -/
inductive FetchOutcome where
  | retryAfter (delayMs : Nat)
  | failBlocked
  | failNotFound
  | failError
  | failNonHtml
  | success
deriving Repr, DecidableEq

/-- The branch structure of `fetchHtml(url, attempt)` on a response with
the given status and content-type header: 5xx under the retry budget
recurses after `min(1000·2^attempt, 8000) + jitter` ms (`jitter` is the
value of `Math.random() * 1000`); other non-2xx map to blocked / notFound /
error; a 2xx whose content-type does not include `text/html` is nonHtml. -/
def fetchStep (maxRetries attempt status : Nat) (contentType : String)
    (jitter : Nat) : FetchOutcome :=
  if statusOk status = false ∧ 500 ≤ status ∧ attempt < maxRetries then
    .retryAfter (min (1000 * 2 ^ attempt) 8000 + jitter)
  else if statusOk status = false then
    if status = 403 ∨ status = 429 then .failBlocked
    else if status = 404 then .failNotFound
    else .failError
  else if strContains contentType "text/html" = false then .failNonHtml
  else .success

/-! ## Email classification and scoring (`lib/validators/email.mjs`) -/

/-- The four email types of `classifyEmail`. -/
inductive EmailType where
  | role
  | personal
  | generic
  | unknown
deriving Repr, DecidableEq

/-- The alternatives of the anchored role-localpart regex
`^(info|kontakt|support|sales|kundtjanst|office|hej|hello|contact|admin|webmaster|inquiry|service)$`. -/
def roleLocalparts : List String :=
  ["info", "kontakt", "support", "sales", "kundtjanst", "office", "hej",
   "hello", "contact", "admin", "webmaster", "inquiry", "service"]

/-- `ROLE_LOCALPARTS.test(l)`: anchored, case-insensitive. -/
def roleLocalpartTest (l : String) : Bool :=
  roleLocalparts.contains (jsToLower l)

/-- The substrings matched by the generic-provider regex
`@(gmail|hotmail|outlook|yahoo|live|icloud|protonmail|me\.com|aol|gmx|mail\.com)`. -/
def genericDomainSubs : List String :=
  ["@gmail", "@hotmail", "@outlook", "@yahoo", "@live", "@icloud",
   "@protonmail", "@me.com", "@aol", "@gmx", "@mail.com"]

/-- `GENERIC_DOMAINS.test(email)`: case-insensitive substring test. -/
def genericDomainTest (email : String) : Bool :=
  genericDomainSubs.any (fun p => strContainsCI email p)

/-- One ASCII letter. -/
def isAsciiLetter (c : Char) : Bool :=
  (97 ≤ c.toNat && c.toNat ≤ 122) || (65 ≤ c.toNat && c.toNat ≤ 90)

/-- The regex `/^[a-z]{1,2}$|^no-?reply/i` applied to a localpart. -/
def genericLocalpartTest (l : String) : Bool :=
  ((l.length == 1 || l.length == 2) && l.data.all isAsciiLetter) ||
  strStartsWith (jsToLower l) "noreply" || strStartsWith (jsToLower l) "no-reply"

/-- The pure classification of `classifyEmail(email, siteHost)` (the
optional, env-gated MX lookup only affects the separate `mxValid` flag):
role localpart → role; generic provider → personal; company domain
(domain suffix of site host or vice versa) → generic for 1–2-letter or
no-reply localparts, else role; otherwise unknown.  Destructuring
`email.split(sep)` keeps the first two fragments; a missing or empty
fragment yields unknown. -/
def classifyEmail (email siteHost : String) : EmailType :=
  match splitStr '@' email with
  | l :: d :: _ =>
    if l == "" || d == "" then .unknown
    else if roleLocalpartTest l then .role
    else if genericDomainTest email then .personal
    else if strEndsWith d siteHost || strEndsWith siteHost d then
      (if genericLocalpartTest l then .generic else .role)
    else .unknown
  | _ => .unknown

/-- `scoreEmail(email, emailType, siteHost)`: integer score starting at 50,
±bonuses, finally clamped into [0, 100] by `Math.max(0, Math.min(100, s))`. -/
def scoreEmail (email : String) (t : EmailType) (siteHost : String) : Int :=
  let parts := splitStr '@' email
  let localpart := parts.getD 0 ""
  let domain := parts.getD 1 ""
  let s1 : Int := 50
  let s2 := if !(domain == "") &&
      (strEndsWith domain siteHost || strEndsWith siteHost domain) then s1 + 30 else s1
  let s3 := if t = .role then s2 + 20 else s2
  let s4 := if t = .personal then s3 - 10 else s3
  let s5 := if t = .generic then s4 - 20 else s4
  let s6 := if roleLocalpartTest localpart then s5 + 10 else s5
  let s7 := if strContainsCI email "noreply" || strContainsCI email "no-reply" ||
      strContainsCI email "donotreply" then s6 - 50 else s6
  let s8 := if strContainsCI email "test" || strContainsCI email "example" ||
      strContainsCI email "placeholder" then s7 - 50 else s7
  max 0 (min 100 s8)

/-! ## Email cleaning (`cleanEmails` in `lib/crawler.mjs`) -/

/-- `ALLOWED_TLDS`. -/
def allowedTlds : List String :=
  ["se", "com", "info", "nu", "org", "net"]

/-- The alternatives of `BAD_EMAILS =
/(example\.com|user@domain\.com|noreply|donotreply|no-reply|test@|placeholder|u003e)/i`. -/
def badEmailSubs : List String :=
  ["example.com", "user@domain.com", "noreply", "donotreply", "no-reply",
   "test@", "placeholder", "u003e"]

/-- `BAD_EMAILS.test(email)`: case-insensitive substring test. -/
def badEmailTest (email : String) : Bool :=
  badEmailSubs.any (fun p => strContainsCI email p)

/-- An element of the `emails` array handed to `cleanEmails`: either a bare
string or an object `{email?, source, confidence}` (the `email` key may be
absent, which the optional chaining `item.email?.trim()` maps to
`undefined`). -/
inductive RawEmail where
  | str (s : String)
  | obj (email : Option String) (source : String) (confidence : ℚ)
deriving Repr

/-- The normalized email of one item:
`typeof item === 'string' ? item.trim().toLowerCase() : item.email?.trim().toLowerCase()`. -/
def rawEmailNorm : RawEmail → Option String
  | .str s => some (jsToLower (jsTrim s))
  | .obj none _ _ => none
  | .obj (some e) _ _ => some (jsToLower (jsTrim e))

/-- `typeof item === 'object' ? item.source : 'unknown'`. -/
def rawEmailSource : RawEmail → String
  | .str _ => "unknown"
  | .obj _ src _ => src

/-- `typeof item === 'object' ? item.confidence : 0.5`. -/
def rawEmailConf : RawEmail → ℚ
  | .str _ => 1/2
  | .obj _ _ c => c

/-- An element of the `out` array built by `cleanEmails`. -/
structure CleanedEmail where
  email : String
  source : String
  confidence : ℚ
deriving Repr, DecidableEq

/-- The loop body of `cleanEmails`, threading the `seen` set.  The
`email-validator` predicate `validateEmailFormat` is a third-party library
and is passed in as `valid`.  Gates in source order: falsy/already-seen,
`BAD_EMAILS`, format validation, localpart/domain destructuring with
truthiness check, TLD allowlist; survivors are pushed and remembered. -/
def cleanEmailsGo (valid : String → Bool) : List RawEmail → List String → List CleanedEmail
  | [], _ => []
  | item :: rest, seen =>
    match rawEmailNorm item with
    | none => cleanEmailsGo valid rest seen
    | some email =>
      if email == "" || seen.contains email then cleanEmailsGo valid rest seen
      else if badEmailTest email then cleanEmailsGo valid rest seen
      else if !(valid email) then cleanEmailsGo valid rest seen
      else
        match splitStr '@' email with
        | l :: d :: _ =>
          if l == "" || d == "" then cleanEmailsGo valid rest seen
          else
            let tld := jsToLower ((splitStr '.' d).getLastD "")
            if tld == "" || !(allowedTlds.contains tld) then
              cleanEmailsGo valid rest seen
            else
              { email := email, source := rawEmailSource item,
                confidence := rawEmailConf item } ::
                cleanEmailsGo valid rest (email :: seen)
        | _ => cleanEmailsGo valid rest seen

/-- `cleanEmails(emails, siteHost)` (the `siteHost` argument is unused in
the source body). -/
def cleanEmails (valid : String → Bool) (items : List RawEmail) : List CleanedEmail :=
  cleanEmailsGo valid items []

/-! ## Per-site aggregation (`crawlSite` in `lib/crawler.mjs`) -/

/-- The `socials` object `{linkedin, facebook, x}`; `none` models `null`. -/
structure Socials where
  linkedin : Option String
  facebook : Option String
  x : Option String
deriving Repr, DecidableEq

/-- JavaScript truthiness of a string-or-null value: `null` and the empty
string are falsy. -/
def jsTruthyStr : Option String → Bool
  | none => false
  | some s => !(s == "")

/-- The three social-aggregation statements of `crawlSite`:
`if (pageResult.socials.f) results.socials.f = pageResult.socials.f` —
each field is overwritten exactly when the page value is truthy. -/
def mergeSocials (acc page : Socials) : Socials :=
  { linkedin := if jsTruthyStr page.linkedin then page.linkedin else acc.linkedin
    facebook := if jsTruthyStr page.facebook then page.facebook else acc.facebook
    x := if jsTruthyStr page.x then page.x else acc.x }

/-- The last truthy value of a sequence of string-or-null values, seeded
with an initial value; used to characterize social-field aggregation. -/
def lastTruthy (init : Option String) (l : List (Option String)) : Option String :=
  l.foldl (fun acc v => if jsTruthyStr v then v else acc) init

/-- One value of the site-level `emails` map:
`email → {email, emailType, confidence, sources, discoveryPath}`. -/
structure EmailAgg where
  email : String
  emailType : EmailType
  confidence : ℚ
  sources : List String
  discoveryPath : String
deriving Repr, DecidableEq

/-- The email-aggregation branch of `crawlSite`: a new key is classified
and scored once and appended (JS `Map` preserves insertion order); an
existing key only gets the new source pushed onto its `sources`. -/
def mergeEmail (siteHost : String) (m : List EmailAgg) (item : CleanedEmail) :
    List EmailAgg :=
  if m.any (fun e => e.email == item.email) then
    m.map (fun e =>
      if e.email == item.email then
        { e with sources := e.sources ++ [item.source] }
      else e)
  else
    let t := classifyEmail item.email siteHost
    m ++ [{ email := item.email, emailType := t,
            confidence := ((scoreEmail item.email t siteHost : Int) : ℚ) / 100,
            sources := [item.source], discoveryPath := item.source }]

/-- An element of the site-level `errors` array: `{url?, reason}`. -/
structure ErrorEntry where
  url : Option String
  reason : String
deriving Repr, DecidableEq

/-- A per-URL crawl result as returned by `crawlUrl` (emails already
cleaned). -/
structure PageResult where
  emails : List CleanedEmail
  phones : List String
  socials : Socials
deriving Repr, DecidableEq

/-- The per-site aggregated result built by `crawlSite`.  `emails` models
the insertion-ordered JS `Map`, `phones` and `sourcePages` the
insertion-ordered JS `Set`s.  -/
structure SiteResult where
  companyName : String
  website : String
  domain : String
  emails : List EmailAgg
  phones : List String
  socials : Socials
  sourcePages : List String
  errors : List ErrorEntry
deriving Repr, DecidableEq

/-- The initial `results` object of `crawlSite`. -/
def initSiteResult (companyName rootUrl host : String) : SiteResult :=
  { companyName := companyName, website := rootUrl, domain := host,
    emails := [], phones := [], socials := ⟨none, none, none⟩,
    sourcePages := [], errors := [] }

/-- JS `Set.prototype.add` on an insertion-ordered set. -/
def addUniq (l : List String) (x : String) : List String :=
  if l.contains x then l else l ++ [x]

/-- The aggregation step of `crawlSite` for one non-null page result:
record the page URL, merge emails, add phones, aggregate socials. -/
def mergePage (siteHost : String) (r : SiteResult) (url : String)
    (page : PageResult) : SiteResult :=
  { r with
    sourcePages := addUniq r.sourcePages url
    emails := page.emails.foldl (mergeEmail siteHost) r.emails
    phones := page.phones.foldl addUniq r.phones
    socials := mergeSocials r.socials page.socials }

/-- The fate of one `crawlUrl(url, host)` call, as decided by its internal
gates (cache, SSRF, robots, fetch, captcha, parse).  Every failing branch
of the source returns `null`; the cache hit and the successful crawl return
a page result. -/
inductive UrlOutcome where
  | cachedHit (r : PageResult)
  | blockedBySsrf
  | robotsDisallowed
  | captchaPage
  | fetchFailed
  | parseFailed
  | okPage (r : PageResult)
deriving Repr

/-- `crawlUrl` as observed by `crawlSite`: the entire body is wrapped in
`try { ... } catch { return null }`, so every failure collapses to `null`
(it is logged and counted, but never thrown and never recorded on the
site's `errors`). -/
def crawlUrlModel : UrlOutcome → Option PageResult
  | .cachedHit r => some r
  | .blockedBySsrf => none
  | .robotsDisallowed => none
  | .captchaPage => none
  | .fetchFailed => none
  | .parseFailed => none
  | .okPage r => some r

/-- The page loop of `crawlSite`: each candidate URL is crawled; a `null`
page result is skipped with `continue`; a non-null one is merged.  The
`catch` inside the loop is unreachable for `crawlUrl` failures (it would
require `crawlUrl` itself to throw, which its own catch prevents), so the
loop never touches `errors`. -/
def crawlSiteLoop (siteHost : String) (r : SiteResult)
    (pages : List (String × UrlOutcome)) : SiteResult :=
  pages.foldl
    (fun acc p =>
      match crawlUrlModel p.2 with
      | none => acc
      | some page => mergePage siteHost acc p.1 page)
    r

/-- The page results the loop actually merges, in order. -/
def pageSuccesses (pages : List (String × UrlOutcome)) : List (String × PageResult) :=
  pages.filterMap (fun p => (crawlUrlModel p.2).map (fun page => (p.1, page)))

/-- The fixed candidate list of `crawlSite`, before truncation. -/
def candidatePages (rootUrl : String) : List String :=
  [rootUrl, rootUrl ++ "/kontakt", rootUrl ++ "/kontakta-oss",
   rootUrl ++ "/om", rootUrl ++ "/om-oss", rootUrl ++ "/about",
   rootUrl ++ "/contact"]

/-- `config.maxPages || 5`: a missing or zero (falsy) value defaults to 5. -/
def effectiveMaxPages (m : Option Nat) : Nat :=
  match m with
  | some n => if n == 0 then 5 else n
  | none => 5

/-- `pagesToCrawl = [...].slice(0, maxPages)`. -/
def pagesToCrawl (rootUrl : String) (m : Option Nat) : List String :=
  (candidatePages rootUrl).take (effectiveMaxPages m)

/-- `crawlSite({rootUrl, host, companyName}, config)`.  `dnc` is the value
of `isDncDomain(host)`; `tosReason` is `some reason` when
`checkTos(host).restricted`; `outcome` gives each candidate URL's fate. -/
def crawlSite (companyName rootUrl host : String) (maxPages : Option Nat)
    (dnc : Bool) (tosReason : Option String) (outcome : String → UrlOutcome) :
    SiteResult :=
  let r0 := initSiteResult companyName rootUrl host
  if dnc then
    { r0 with errors := r0.errors ++ [⟨none, "Domain on Do-Not-Contact list"⟩] }
  else
    let r1 :=
      match tosReason with
      | some reason => { r0 with errors := r0.errors ++ [⟨none, reason⟩] }
      | none => r0
    crawlSiteLoop host r1
      ((pagesToCrawl rootUrl maxPages).map (fun u => (u, outcome u)))

/-! ## Record emission (`toContactRecords`, `createContactRecord`) -/

/-- `x || null` for a string-or-null value: an empty string collapses to
`null`. -/
def jsOrNullOpt (o : Option String) : Option String :=
  match o with
  | some s => if s == "" then none else some s
  | none => none

/-- `/kontakt|contact/i.test(p)`. -/
def contactPageTest (p : String) : Bool :=
  strContainsCI p "kontakt" || strContainsCI p "contact"

/-- The emitted ContactRecord, after `createContactRecord` normalized the
optional fields (the wall-clock `timestamp` is outside the embedding). -/
structure ContactRecord where
  sourceUrl : String
  domain : String
  email : String
  emailType : EmailType
  confidence : ℚ
  discoveryPath : String
  phone : Option String
  contactPage : Option String
  social : Socials
  rawEvidence : Option String
deriving Repr, DecidableEq

/-- `toContactRecords(crawlResult)`: one record per aggregated email, with
the first phone (`[...phones][0] || null`), the first source page matching
`/kontakt|contact/i` (`find(..) || null`), the site socials normalized by
`createContactRecord` (`social.f || null`), and
`rawEvidence = "Sources: " + sources.join(", ")`. -/
def toContactRecords (r : SiteResult) : List ContactRecord :=
  r.emails.map (fun data =>
    { sourceUrl := r.website
      domain := r.domain
      email := data.email
      emailType := data.emailType
      confidence := data.confidence
      discoveryPath := data.discoveryPath
      phone := jsOrNullOpt r.phones.head?
      contactPage := jsOrNullOpt (r.sourcePages.find? contactPageTest)
      social := { linkedin := jsOrNullOpt r.socials.linkedin
                  facebook := jsOrNullOpt r.socials.facebook
                  x := jsOrNullOpt r.socials.x }
      rawEvidence := some ("Sources: " ++ String.intercalate ", " data.sources) })

/-! ## `createContactRecord` over three-valued JS values
(`lib/models/ContactRecord.mjs`) -/

/-- A JavaScript value that is a string, `null`, or `undefined`; the
three-valued model makes "never undefined" a provable statement. -/
inductive JsVal where
  | undef
  | null
  | str (s : String)
deriving Repr, DecidableEq

/-- JavaScript truthiness: `undefined`, `null` and `""` are falsy. -/
def jsvTruthy : JsVal → Bool
  | .undef => false
  | .null => false
  | .str s => !(s == "")

/-- `v || null`. -/
def jsvOrNull (v : JsVal) : JsVal :=
  if jsvTruthy v then v else .null

/-- A JavaScript default parameter `x = dflt`: applied only to `undefined`. -/
def jsDefault (v dflt : JsVal) : JsVal :=
  match v with
  | .undef => dflt
  | w => w

/-- The `social` argument of `createContactRecord`: each key may be absent
(`undefined`), `null`, or a string. -/
structure SocialsInput where
  linkedin : JsVal := .undef
  facebook : JsVal := .undef
  x : JsVal := .undef
deriving Repr, DecidableEq

/-- The destructured argument of `createContactRecord`; `.undef` marks an
omitted key, `none` for `social` marks an absent argument (the JS default
`social = {}` then applies). -/
structure ContactRecordInput where
  sourceUrl : String
  domain : String
  email : String
  emailType : EmailType
  confidence : ℚ
  discoveryPath : String
  phone : JsVal := .undef
  contactPage : JsVal := .undef
  social : Option SocialsInput := none
  rawEvidence : JsVal := .undef
deriving Repr, DecidableEq

/-- The object literal returned by `createContactRecord`, with the social
object flattened into three fields. -/
structure JsContactRecord where
  sourceUrl : String
  domain : String
  email : String
  emailType : EmailType
  confidence : ℚ
  discoveryPath : String
  phone : JsVal
  contactPage : JsVal
  socialLinkedin : JsVal
  socialFacebook : JsVal
  socialX : JsVal
  rawEvidence : JsVal
deriving Repr, DecidableEq

/-- `createContactRecord(data)`: `phone`, `contactPage`, `rawEvidence`
default to `null` when omitted; `social` defaults to `{}`; each emitted
social field is `social.f || null`. -/
def createContactRecord (i : ContactRecordInput) : JsContactRecord :=
  let social := i.social.getD {}
  { sourceUrl := i.sourceUrl
    domain := i.domain
    email := i.email
    emailType := i.emailType
    confidence := i.confidence
    discoveryPath := i.discoveryPath
    phone := jsDefault i.phone .null
    contactPage := jsDefault i.contactPage .null
    socialLinkedin := jsvOrNull social.linkedin
    socialFacebook := jsvOrNull social.facebook
    socialX := jsvOrNull social.x
    rawEvidence := jsDefault i.rawEvidence .null }

/-- A value that is a string or `null` — never `undefined`. -/
def stringOrNull (v : JsVal) : Prop :=
  v = .null ∨ ∃ s, v = .str s

/-- The per-email gates of the cleaning pipeline: not a bad email, accepted
by the format validator, non-empty localpart and domain after splitting on
the first `@`, and an allow-listed TLD (last dot-fragment of the domain,
lowercased). -/
def emailGatesOk (valid : String → Bool) (e : String) : Prop :=
  badEmailTest e = false ∧ valid e = true ∧
  ∃ l d rest, splitStr '@' e = l :: d :: rest ∧ l ≠ "" ∧ d ≠ "" ∧
    allowedTlds.contains (jsToLower ((splitStr '.' d).getLastD "")) = true

/-- The stored-entry invariant of the site-level email map: the stored
type is the classification of the email against the site host, and the
stored confidence is the corresponding score over 100 — i.e. both were
computed once, at first sighting, and never changed. -/
def emailAggOk (host : String) (e : EmailAgg) : Prop :=
  e.emailType = classifyEmail e.email host ∧
  e.confidence = ((scoreEmail e.email e.emailType host : Int) : ℚ) / 100

/-- Concrete per-URL environment in which the root page's fetch fails and
the `/kontakt` page succeeds with one phone number. -/
def failThenOkOutcome : String → UrlOutcome :=
  fun u =>
    if u == "https://acme.se" then .fetchFailed
    else .okPage ⟨[], ["+4684002227"], ⟨none, none, none⟩⟩

/-! # Theorems -/

/-! ## Shared helper lemmas -/

/-- `mergePage` never touches the site's `errors` list. -/
theorem mergePage_errors (host : String) (r : SiteResult) (url : String)
    (page : PageResult) : (mergePage host r url page).errors = r.errors := rfl

/-- The page loop is the fold of `mergePage` over the successful pages:
failed URLs are skipped and processing continues. -/
theorem crawlSiteLoop_eq_foldl_successes (host : String)
    (pages : List (String × UrlOutcome)) : ∀ r : SiteResult,
    crawlSiteLoop host r pages =
      (pageSuccesses pages).foldl (fun acc q => mergePage host acc q.1 q.2) r := by
  induction pages with
  | nil => intro r; rfl
  | cons p t ih =>
    intro r
    cases h : crawlUrlModel p.2 with
    | none =>
      simp only [crawlSiteLoop, List.foldl_cons, h, pageSuccesses,
        List.filterMap_cons, Option.map_none']
      exact ih r
    | some page =>
      simp only [crawlSiteLoop, List.foldl_cons, h, pageSuccesses,
        List.filterMap_cons, Option.map_some', List.foldl]
      exact ih (mergePage host r p.1 page)

/-- Folding `mergePage` preserves the `errors` list. -/
theorem foldl_mergePage_errors (host : String)
    (l : List (String × PageResult)) : ∀ r : SiteResult,
    (l.foldl (fun acc q => mergePage host acc q.1 q.2) r).errors = r.errors := by
  induction l with
  | nil => intro r; rfl
  | cons q t ih => intro r; exact ih (mergePage host r q.1 q.2)

/-! ## C1 — social-field aggregation -/

/-- C1 counterexample: two successfully crawled pages both expose a
LinkedIn link; the aggregate keeps the second page's value, so a field
already set by an earlier page IS changed by a later page — the claim's
first-non-empty-wins invariant fails. -/
theorem C1_counterexample :
    (crawlSiteLoop "acme.se" (initSiteResult "Acme" "https://acme.se" "acme.se")
      [("https://acme.se",
        .okPage ⟨[], [], ⟨some "https://linkedin.com/company/first", none, none⟩⟩),
       ("https://acme.se/om",
        .okPage ⟨[], [], ⟨some "https://linkedin.com/company/second", none, none⟩⟩)]).socials.linkedin
      = some "https://linkedin.com/company/second" ∧
    ¬ (crawlSiteLoop "acme.se" (initSiteResult "Acme" "https://acme.se" "acme.se")
      [("https://acme.se",
        .okPage ⟨[], [], ⟨some "https://linkedin.com/company/first", none, none⟩⟩),
       ("https://acme.se/om",
        .okPage ⟨[], [], ⟨some "https://linkedin.com/company/second", none, none⟩⟩)]).socials.linkedin
      = some "https://linkedin.com/company/first" := by
  constructor <;> decide

/-- C1 amended: each social field of the aggregated site result is
overwritten exactly when the current page's value is non-empty — the LAST
non-empty value over the successfully crawled pages wins per site (seeded
with the initial `null`s). -/
theorem C1_socials_last_nonempty_wins (host : String) (r : SiteResult)
    (pages : List (String × UrlOutcome)) :
    (crawlSiteLoop host r pages).socials.linkedin
      = lastTruthy r.socials.linkedin
          ((pageSuccesses pages).map (fun q => q.2.socials.linkedin)) ∧
    (crawlSiteLoop host r pages).socials.facebook
      = lastTruthy r.socials.facebook
          ((pageSuccesses pages).map (fun q => q.2.socials.facebook)) ∧
    (crawlSiteLoop host r pages).socials.x
      = lastTruthy r.socials.x
          ((pageSuccesses pages).map (fun q => q.2.socials.x)) := by
  induction pages generalizing r with
  | nil => exact ⟨rfl, rfl, rfl⟩
  | cons p t ih =>
    cases h : crawlUrlModel p.2 with
    | none =>
      simpa only [crawlSiteLoop, List.foldl_cons, h, pageSuccesses,
        List.filterMap_cons, Option.map_none'] using ih r
    | some page =>
      have hstep := ih (mergePage host r p.1 page)
      simpa only [crawlSiteLoop, List.foldl_cons, h, pageSuccesses,
        List.filterMap_cons, Option.map_some', List.map_cons, lastTruthy,
        List.foldl_cons, mergePage, mergeSocials] using hstep

/-! ## C4 — per-URL failure handling -/

/-- C4 counterexample: with `maxPages = 2`, the root URL's fetch fails and
the `/kontakt` page succeeds.  The site result records NO error for the
failed URL (`errors` stays empty, against the claim), while the crawl did
continue and aggregated the second page. -/
theorem C4_counterexample :
    (crawlSite "Acme" "https://acme.se" "acme.se" (some 2) false none
      failThenOkOutcome).errors = [] ∧
    (crawlSite "Acme" "https://acme.se" "acme.se" (some 2) false none
      failThenOkOutcome).sourcePages = ["https://acme.se/kontakt"] ∧
    (crawlSite "Acme" "https://acme.se" "acme.se" (some 2) false none
      failThenOkOutcome).phones = ["+4684002227"] := by
  refine ⟨?_, ?_, ?_⟩ <;> decide

/-- C4 amended: every per-URL failure (unsafe URL, robots disallow, fetch
error, captcha, parse failure) is swallowed into a null page result and
only logged; the site's `errors` list is NOT extended by the page loop, and
the crawl continues with the remaining candidate pages — the final result
is exactly the fold over the successful pages. -/
theorem C4_failures_swallowed_not_recorded (host : String) (r : SiteResult)
    (pages : List (String × UrlOutcome)) :
    (crawlSiteLoop host r pages).errors = r.errors ∧
    crawlSiteLoop host r pages =
      (pageSuccesses pages).foldl (fun acc q => mergePage host acc q.1 q.2) r := by
  refine ⟨?_, crawlSiteLoop_eq_foldl_successes host pages r⟩
  rw [crawlSiteLoop_eq_foldl_successes host pages r]
  exact foldl_mergePage_errors host (pageSuccesses pages) r

/-! ## C5 — SSRF IP blocklist -/

/-- C5 counterexample: IPv6 literals are never rejected.  In a URL the
IPv6 host keeps its brackets (`new URL("http://[fc00::1]/").hostname` is
`"[fc00::1]"`) and `net.isIP` of a bracketed string is `0`, so for
`http://[fc00::1]/` — squarely inside unique-local `fc00::/7` — the
blocklist branch is skipped, the failing DNS lookup is non-fatal, and the
URL is allowed.  Even under the most charitable unbracketed reading,
`fd00::1` is unique-local (top byte `0xfd`) yet matches no textual pattern
and is allowed as well.  The claim requires `safe := false` for both. -/
theorem C5_counterexample :
    specUniqueLocal "fc00::1" = true ∧
    isSafeUrl "http:" "[fc00::1]" false none = { safe := true, reason := none } ∧
    specUniqueLocal "fd00::1" = true ∧
    isSafeUrl "http:" "fd00::1" true none = { safe := true, reason := none } := by
  refine ⟨?_, ?_, ?_, ?_⟩ <;> decide

/-- C5 amended: the host-literal branch of `isSafeUrl` rejects an address
only when `net.isIP(hostname)` is truthy AND the hostname text matches a
blocklist pattern.  For IPv4 literals this blocks the listed ranges; for
IPv6 literals it never fires, because the WHATWG hostname keeps its
brackets and `net.isIP` recognizes no bracketed string — so every
IPv6-literal URL, the whole `fc00::/7` range included, passes the literal
check and is allowed when DNS resolution fails non-fatally. -/
theorem C5_ipv4_blocked_ipv6_allowed (isip : String → Bool)
    (hsound : isIPNoBrackets isip) :
    (∀ (hostname : String) (dns4 : Option (List String)),
      isip hostname = true → blockedIpTest hostname = true →
      (isSafeUrl "http:" hostname (isip hostname) dns4).safe = false) ∧
    (∀ addr : String,
      (isSafeUrl "http:" ("[" ++ addr ++ "]")
        (isip ("[" ++ addr ++ "]")) none).safe = true) ∧
    (∀ addr : String, specUniqueLocal addr = true →
      (isSafeUrl "http:" ("[" ++ addr ++ "]")
        (isip ("[" ++ addr ++ "]")) none).safe = true) := by
  have hipv6 : ∀ addr : String,
      (isSafeUrl "http:" ("[" ++ addr ++ "]")
        (isip ("[" ++ addr ++ "]")) none).safe = true := by
    intro addr
    have hbr : (("[" ++ addr ++ "]").data.contains '[') = true := by
      obtain ⟨l⟩ := addr
      rfl
    have hip := hsound _ hbr
    simp [isSafeUrl, hip]
  refine ⟨?_, hipv6, fun addr _ => hipv6 addr⟩
  intro hostname dns4 hip hblock
  simp [isSafeUrl, hip, hblock]

/-- C5 witness: with a concrete bracket-free `net.isIP` model, the IPv4
loopback literal `127.0.0.1` is rejected while the bracketed unique-local
URL host `[fc00::1]` is allowed. -/
theorem C5_witness :
    (isSafeUrl "http:" "127.0.0.1" true none).safe = false ∧
    (isSafeUrl "http:" "[fc00::1]" false none).safe = true := by
  have hsound : isIPNoBrackets (fun s => s == "127.0.0.1") := by
    intro s h
    rcases eq_or_ne s "127.0.0.1" with rfl | hne
    · exact absurd h (by decide)
    · exact beq_eq_false_iff_ne.mpr hne
  constructor
  · exact (C5_ipv4_blocked_ipv6_allowed _ hsound).1 "127.0.0.1" none
      (by decide) (by decide)
  · exact (C5_ipv4_blocked_ipv6_allowed _ hsound).2.1 "fc00::1"

/-! ## C8 — candidate page list -/

/-- C8: for `1 ≤ maxPages = n` the candidate list is exactly the length-`n`
prefix of `[rootUrl, /kontakt, /kontakta-oss, /om, /om-oss, /about,
/contact]`, at most `n` URLs are attempted, and `n = 1` tries only the root
URL. -/
theorem C8_candidate_page_list (rootUrl : String) (n : Nat) (h : 1 ≤ n) :
    pagesToCrawl rootUrl (some n) =
      [rootUrl, rootUrl ++ "/kontakt", rootUrl ++ "/kontakta-oss",
       rootUrl ++ "/om", rootUrl ++ "/om-oss", rootUrl ++ "/about",
       rootUrl ++ "/contact"].take n ∧
    (pagesToCrawl rootUrl (some n)).length ≤ n ∧
    (n = 1 → pagesToCrawl rootUrl (some n) = [rootUrl]) := by
  have hn : effectiveMaxPages (some n) = n := by
    have : (n == 0) = false := by
      simp only [beq_eq_false_iff_ne, ne_eq]
      omega
    simp [effectiveMaxPages, this]
  refine ⟨?_, ?_, ?_⟩
  · unfold pagesToCrawl candidatePages
    rw [hn]
  · unfold pagesToCrawl
    rw [hn, List.length_take]
    exact Nat.min_le_left _ _
  · intro h1
    subst h1
    rfl

/-- C8 witness: `maxPages = 1` tries only the root URL. -/
theorem C8_witness :
    pagesToCrawl "https://example.se" (some 1) = ["https://example.se"] :=
  (C8_candidate_page_list "https://example.se" 1 (by norm_num)).2.2 rfl

/-! ## C9 — fetch retry and status policy -/

/-- C9: a 5xx response under the retry budget is retried after
`min(1000·2^attempt, 8000) + jitter` ms with `jitter ∈ [0, 1000)`; no 4xx
is ever retried; 403/429 fail as blocked, 404 as notFound, any other
non-2xx as error; a 2xx whose content-type does not contain `text/html`
fails as nonHtml. -/
theorem C9_retry_and_status_policy (maxRetries attempt status jitter : Nat)
    (ct : String) :
    (500 ≤ status → attempt < maxRetries → jitter < 1000 →
      fetchStep maxRetries attempt status ct jitter
        = .retryAfter (min (1000 * 2 ^ attempt) 8000 + jitter)) ∧
    (400 ≤ status → status ≤ 499 →
      ∀ d, fetchStep maxRetries attempt status ct jitter ≠ .retryAfter d) ∧
    (status = 403 ∨ status = 429 →
      fetchStep maxRetries attempt status ct jitter = .failBlocked) ∧
    (status = 404 → fetchStep maxRetries attempt status ct jitter = .failNotFound) ∧
    (statusOk status = false → ¬(500 ≤ status ∧ attempt < maxRetries) →
      status ≠ 403 → status ≠ 429 → status ≠ 404 →
      fetchStep maxRetries attempt status ct jitter = .failError) ∧
    (statusOk status = true → strContains ct "text/html" = false →
      fetchStep maxRetries attempt status ct jitter = .failNonHtml) := by
  have hok : statusOk status = true ↔ 200 ≤ status ∧ status ≤ 299 := by
    simp [statusOk]
  have hnot : statusOk status = false ↔ (status < 200 ∨ 299 < status) := by
    rw [← Bool.not_eq_true, hok]
    omega
  refine ⟨?_, ?_, ?_, ?_, ?_, ?_⟩
  · intro h5 ha _
    have hnok : statusOk status = false := hnot.mpr (by omega)
    unfold fetchStep
    rw [if_pos ⟨hnok, h5, ha⟩]
  · intro h4 h4b d
    unfold fetchStep
    split_ifs with h1 h2 h3 h4c h5c <;> try simp
    exact absurd h1.2.1 (by omega)
  · intro hs
    have hnok : statusOk status = false := hnot.mpr (by omega)
    unfold fetchStep
    rw [if_neg (by rintro ⟨-, h5, -⟩; omega), if_pos hnok, if_pos hs]
  · intro hs
    have hnok : statusOk status = false := hnot.mpr (by omega)
    unfold fetchStep
    rw [if_neg (by rintro ⟨-, h5, -⟩; omega), if_pos hnok,
      if_neg (by omega), if_pos hs]
  · intro hnok hnr h403 h429 h404
    unfold fetchStep
    rw [if_neg (by rintro ⟨-, h5, ha⟩; exact hnr ⟨h5, ha⟩), if_pos hnok,
      if_neg (by tauto), if_neg h404]
  · intro hyes hct
    unfold fetchStep
    rw [if_neg (by rintro ⟨hf, -, -⟩; rw [hyes] at hf; cases hf),
      if_neg (by rw [hyes]; simp), if_pos hct]

/-- C9 witness: a first-attempt 500 under the default budget of 3 retries
is retried after `min(1000·2^0, 8000) + 0 = 1000` ms. -/
theorem C9_witness :
    fetchStep 3 0 500 "text/html" 0 = .retryAfter 1000 := by
  have h := (C9_retry_and_status_policy 3 0 500 0 "text/html").1
    (by norm_num) (by norm_num) (by norm_num)
  simpa using h

/-! ## C10 — emitted record shape -/

/-- C10: every record built by `createContactRecord` — including from
inputs whose `social` argument is absent, empty, or has falsy fields — has
social fields that are a string or `null` (never `undefined`), and omitted
`phone`, `contactPage` and `rawEvidence` default to `null`. -/
theorem C10_record_field_shape (i : ContactRecordInput) :
    stringOrNull (createContactRecord i).socialLinkedin ∧
    stringOrNull (createContactRecord i).socialFacebook ∧
    stringOrNull (createContactRecord i).socialX ∧
    (i.phone = .undef → (createContactRecord i).phone = .null) ∧
    (i.contactPage = .undef → (createContactRecord i).contactPage = .null) ∧
    (i.rawEvidence = .undef → (createContactRecord i).rawEvidence = .null) := by
  have key : ∀ v : JsVal, stringOrNull (jsvOrNull v) := by
    intro v
    cases v with
    | undef => exact Or.inl rfl
    | null => exact Or.inl rfl
    | str s =>
      by_cases hs : s = ""
      · subst hs
        exact Or.inl rfl
      · refine Or.inr ⟨s, ?_⟩
        simp [jsvOrNull, jsvTruthy, hs]
  refine ⟨key _, key _, key _, ?_, ?_, ?_⟩ <;>
    · intro h
      simp [createContactRecord, h, jsDefault]

/-- C10 witness: a minimal input omitting every optional argument yields
`null` for `phone` (via the theorem), and likewise evaluates to `null`
socials. -/
theorem C10_witness :
    ({ sourceUrl := "https://a.se", domain := "a.se", email := "info@a.se",
       emailType := .role, confidence := 3/5,
       discoveryPath := "mailto" } : ContactRecordInput).phone = JsVal.undef ∧
    (createContactRecord
      { sourceUrl := "https://a.se", domain := "a.se", email := "info@a.se",
        emailType := .role, confidence := 3/5,
        discoveryPath := "mailto" }).phone = JsVal.null :=
  ⟨rfl, (C10_record_field_shape _).2.2.2.1 rfl⟩

/-- C2: the crawler skips a page via `handleCaptcha`, which types only the
recaptcha/hcaptcha/cloudflare pattern groups.  A body consisting of the
Cloudflare challenge text `"Just a moment..."` is flagged by `hasCaptcha`
(the module's own indicator list, imported by `lib/crawler.mjs` but never
called) yet `handleCaptcha` returns `skip := false`, so the page is parsed
and the captcha counter is not incremented — against the claim. -/
theorem C2_captcha_just_a_moment_not_skipped :
    hasCaptcha "Just a moment..." = true ∧
    handleCaptcha "Just a moment..." = { skip := false, reason := none } := by
  constructor <;> decide

/-! ## C3 — happy-path scenario -/

/-- C3 counterexample: for the happy-path email `info@example.se` on site
`example.se`, classification is role, but `scoreEmail` also fires the
−50 penalty for `/test|example|placeholder/i` on the substring `example`,
so the score is 50 + 30 + 20 + 10 − 50 = 60 and the record confidence is
0.60 — not approximately 0.90 as claimed. -/
theorem C3_counterexample :
    classifyEmail "info@example.se" "example.se" = EmailType.role ∧
    scoreEmail "info@example.se" EmailType.role "example.se" = 60 ∧
    ¬ (85 / 100 ≤ ((60 : Int) : ℚ) / 100) := by
  refine ⟨by decide, by decide, by norm_num⟩

/-- C3 amended: the happy-path site crawl — one page whose mailto anchor
yields the evidence item `{email:"info@example.se", source:"mailto",
confidence:0.85}` and whose tel anchor yields phone `+4684002227` — emits
exactly one contact record with email `info@example.se`, emailType role,
discoveryPath `mailto`, phone `+4684002227` and confidence 0.60 (score
50 + 30 + 20 + 10 − 50 = 60 over 100), for every format validator that
accepts the address. -/
theorem C3_happy_path_confidence_sixty (valid : String → Bool)
    (h : valid "info@example.se" = true) :
    toContactRecords
      (crawlSiteLoop "example.se"
        (initSiteResult "Example AB" "https://example.se" "example.se")
        [("https://example.se",
          .okPage
            { emails := cleanEmails valid
                [.obj (some "info@example.se") "mailto" (0.85 : ℚ)]
              phones := ["+4684002227"]
              socials := ⟨none, none, none⟩ })])
      = [{ sourceUrl := "https://example.se", domain := "example.se",
           email := "info@example.se", emailType := EmailType.role,
           confidence := 3/5, discoveryPath := "mailto",
           phone := some "+4684002227", contactPage := none,
           social := ⟨none, none, none⟩,
           rawEvidence := some "Sources: mailto" }] := by
  have hstep : cleanEmails valid [.obj (some "info@example.se") "mailto" (0.85 : ℚ)]
      = if (!(valid "info@example.se")) = true then []
        else [⟨"info@example.se", "mailto", (0.85 : ℚ)⟩] := rfl
  have hv : (!(valid "info@example.se")) = false := by
    rw [h]
    rfl
  have hclean : cleanEmails valid [.obj (some "info@example.se") "mailto" (0.85 : ℚ)]
      = [⟨"info@example.se", "mailto", (0.85 : ℚ)⟩] := by
    rw [hstep, hv]
    rfl
  rw [hclean]
  have hscore : scoreEmail "info@example.se" EmailType.role "example.se" = 60 := by
    decide
  have hsite : crawlSiteLoop "example.se"
      (initSiteResult "Example AB" "https://example.se" "example.se")
      [("https://example.se",
        .okPage
          { emails := [⟨"info@example.se", "mailto", (0.85 : ℚ)⟩]
            phones := ["+4684002227"]
            socials := ⟨none, none, none⟩ })]
      = { companyName := "Example AB", website := "https://example.se",
          domain := "example.se",
          emails := [⟨"info@example.se", EmailType.role,
            ((scoreEmail "info@example.se" EmailType.role "example.se" : Int) : ℚ) / 100,
            ["mailto"], "mailto"⟩],
          phones := ["+4684002227"], socials := ⟨none, none, none⟩,
          sourcePages := ["https://example.se"], errors := [] } := rfl
  have hconf : ((scoreEmail "info@example.se" EmailType.role "example.se" : Int) : ℚ) / 100
      = 3/5 := by
    rw [hscore]
    norm_num
  rw [hsite, hconf]
  rfl

/-- C3 witness: the amended theorem at the always-true format validator. -/
theorem C3_witness :
    ((fun _ : String => true) "info@example.se" = true) ∧
    toContactRecords
      (crawlSiteLoop "example.se"
        (initSiteResult "Example AB" "https://example.se" "example.se")
        [("https://example.se",
          .okPage
            { emails := cleanEmails (fun _ => true)
                [.obj (some "info@example.se") "mailto" (0.85 : ℚ)]
              phones := ["+4684002227"]
              socials := ⟨none, none, none⟩ })])
      = [{ sourceUrl := "https://example.se", domain := "example.se",
           email := "info@example.se", emailType := EmailType.role,
           confidence := 3/5, discoveryPath := "mailto",
           phone := some "+4684002227", contactPage := none,
           social := ⟨none, none, none⟩,
           rawEvidence := some "Sources: mailto" }] :=
  ⟨rfl, C3_happy_path_confidence_sixty (fun _ => true) rfl⟩

/-! ## C6 — email cleaning pipeline -/

/-- Soundness of the cleaning loop: every survivor arose as the
trimmed/lowercased email of some input item, passed every gate, was not in
`seen`, and the surviving emails are pairwise distinct. -/
theorem cleanEmailsGo_sound (valid : String → Bool) (items : List RawEmail) :
    ∀ seen : List String,
    (∀ c ∈ cleanEmailsGo valid items seen,
      (∃ item ∈ items, rawEmailNorm item = some c.email) ∧
      emailGatesOk valid c.email ∧ seen.contains c.email = false) ∧
    ((cleanEmailsGo valid items seen).map (fun c => c.email)).Nodup := by
  induction items with
  | nil =>
    intro seen
    constructor
    · intro c hc
      simp [cleanEmailsGo] at hc
    · simp [cleanEmailsGo]
  | cons item rest ih =>
    intro seen
    have hskip :
        (∀ c ∈ cleanEmailsGo valid rest seen,
          (∃ it ∈ item :: rest, rawEmailNorm it = some c.email) ∧
          emailGatesOk valid c.email ∧ seen.contains c.email = false) ∧
        ((cleanEmailsGo valid rest seen).map (fun c => c.email)).Nodup := by
      refine ⟨fun c hc => ?_, (ih seen).2⟩
      obtain ⟨⟨it, hit, hi⟩, hg, hs⟩ := (ih seen).1 c hc
      exact ⟨⟨it, List.mem_cons_of_mem _ hit, hi⟩, hg, hs⟩
    cases hnorm : rawEmailNorm item with
    | none =>
      simpa only [cleanEmailsGo, hnorm] using hskip
    | some email =>
      simp only [cleanEmailsGo, hnorm]
      by_cases h1 : (email == "" || seen.contains email) = true
      · rw [if_pos h1]
        exact hskip
      · rw [if_neg h1]
        by_cases h2 : badEmailTest email = true
        · rw [if_pos h2]
          exact hskip
        · rw [if_neg h2]
          by_cases h3 : (!(valid email)) = true
          · rw [if_pos h3]
            exact hskip
          · rw [if_neg h3]
            rcases hsp : splitStr '@' email with - | ⟨l, ls⟩
            · exact hskip
            rcases ls with - | ⟨d, restsp⟩
            · exact hskip
            dsimp only
            by_cases h4 : (l == "" || d == "") = true
            · rw [if_pos h4]
              exact hskip
            rw [if_neg h4]
            by_cases h5 : (jsToLower ((splitStr '.' d).getLastD "") == "" ||
                !(allowedTlds.contains (jsToLower ((splitStr '.' d).getLastD "")))) = true
            · rw [if_pos h5]
              exact hskip
            rw [if_neg h5]
            -- survivor branch: decompose the gate conditions
            have h1f := Bool.eq_false_iff.mpr h1
            have h4f := Bool.eq_false_iff.mpr h4
            have h5f := Bool.eq_false_iff.mpr h5
            simp only [Bool.or_eq_false_iff] at h1f h4f h5f
            have hvalid : valid email = true := by
              rcases Bool.eq_false_iff.mpr h3 with hb
              simpa using hb
            have hgates : emailGatesOk valid email := by
              refine ⟨Bool.eq_false_iff.mpr h2, hvalid,
                l, d, restsp, hsp, ?_, ?_, ?_⟩
              · simpa using h4f.1
              · simpa using h4f.2
              · have := h5f.2
                simpa using this
            constructor
            · intro c hc
              rcases List.mem_cons.mp hc with hc | hc
              · subst hc
                refine ⟨⟨item, List.mem_cons_self _ _, by rw [hnorm]⟩, hgates, h1f.2⟩
              · obtain ⟨⟨it, hit, hi⟩, hg, hs⟩ := (ih (email :: seen)).1 c hc
                rw [List.contains_cons] at hs
                simp only [Bool.or_eq_false_iff] at hs
                exact ⟨⟨it, List.mem_cons_of_mem _ hit, hi⟩, hg, hs.2⟩
            · rw [List.map_cons, List.nodup_cons]
              constructor
              · intro hmem
                obtain ⟨c, hc, hce⟩ := List.mem_map.mp hmem
                have hs := ((ih (email :: seen)).1 c hc).2.2
                rw [List.contains_cons] at hs
                simp only [Bool.or_eq_false_iff, beq_eq_false_iff_ne] at hs
                exact hs.1 hce
              · exact (ih (email :: seen)).2

/-- C6: the cleaning pipeline emits only emails that are the
trimmed+lowercased form of some extracted item, do not match the bad-email
pattern, pass the format validator, split into a non-empty localpart and
domain, carry an allow-listed TLD, and appear at most once per page result;
everything failing a gate is discarded. -/
theorem C6_cleaning_pipeline (valid : String → Bool) (items : List RawEmail) :
    (∀ c ∈ cleanEmails valid items,
      (∃ item ∈ items, rawEmailNorm item = some c.email) ∧
      emailGatesOk valid c.email) ∧
    ((cleanEmails valid items).map (fun c => c.email)).Nodup := by
  have h := cleanEmailsGo_sound valid items []
  exact ⟨fun c hc => ⟨(h.1 c hc).1, (h.1 c hc).2.1⟩, h.2⟩

/-! ## C7 — aggregation invariants -/

/-- The clamp `Math.max(0, Math.min(100, s))` keeps every score in
[0, 100]. -/
theorem scoreEmail_bounds (email : String) (t : EmailType) (siteHost : String) :
    0 ≤ scoreEmail email t siteHost ∧ scoreEmail email t siteHost ≤ 100 := by
  unfold scoreEmail
  exact ⟨le_max_left 0 _, max_le (by norm_num) (min_le_left _ _)⟩

/-- One `mergeEmail` step preserves key uniqueness and the stored-entry
invariant: an existing key only has its `sources` extended, a new key is
appended with its one-time classification and score. -/
theorem mergeEmail_inv (host : String) (m : List EmailAgg) (item : CleanedEmail)
    (hn : (m.map (fun e => e.email)).Nodup) (hP : ∀ e ∈ m, emailAggOk host e) :
    ((mergeEmail host m item).map (fun e => e.email)).Nodup ∧
    (∀ e ∈ mergeEmail host m item, emailAggOk host e) := by
  unfold mergeEmail
  split_ifs with hmem
  · have hkeys : (m.map (fun e =>
        if e.email == item.email then
          { e with sources := e.sources ++ [item.source] }
        else e)).map (fun e => e.email) = m.map (fun e => e.email) := by
      rw [List.map_map]
      refine List.map_congr_left (fun e _ => ?_)
      by_cases he : e.email == item.email
      · simp only [Function.comp_apply, if_pos he]
      · simp only [Function.comp_apply, if_neg he]
    constructor
    · rw [hkeys]
      exact hn
    · intro e he
      obtain ⟨a, ha, hae⟩ := List.mem_map.mp he
      have hP2 := hP a ha
      by_cases hc : a.email == item.email
      · rw [if_pos hc] at hae
        subst hae
        exact hP2
      · rw [if_neg hc] at hae
        subst hae
        exact hP2
  · constructor
    · rw [List.map_append, List.nodup_append]
      refine ⟨hn, List.nodup_singleton _, ?_⟩
      intro x hx hy
      simp only [List.map_cons, List.map_nil, List.mem_singleton] at hy
      obtain ⟨a, ha, hae⟩ := List.mem_map.mp hx
      have : ¬ (m.any (fun e => e.email == item.email)) = true := hmem
      rw [List.any_eq_true] at this
      exact this ⟨a, ha, by rw [beq_iff_eq, hae, hy]⟩
    · intro e he
      rcases List.mem_append.mp he with he | he
      · exact hP e he
      · simp only [List.mem_singleton] at he
        subst he
        exact ⟨rfl, rfl⟩

/-- Folding `mergeEmail` over a page's cleaned emails preserves the
invariants. -/
theorem foldl_mergeEmail_inv (host : String) (items : List CleanedEmail) :
    ∀ m : List EmailAgg, (m.map (fun e => e.email)).Nodup →
    (∀ e ∈ m, emailAggOk host e) →
    (((items.foldl (mergeEmail host) m).map (fun e => e.email)).Nodup ∧
     ∀ e ∈ items.foldl (mergeEmail host) m, emailAggOk host e) := by
  induction items with
  | nil => intro m hn hP; exact ⟨hn, hP⟩
  | cons item rest ih =>
    intro m hn hP
    have h := mergeEmail_inv host m item hn hP
    exact ih (mergeEmail host m item) h.1 h.2

/-- The page loop preserves the email-map invariants. -/
theorem crawlSiteLoop_email_inv (host : String)
    (pages : List (String × UrlOutcome)) :
    ∀ r : SiteResult, (r.emails.map (fun e => e.email)).Nodup →
    (∀ e ∈ r.emails, emailAggOk host e) →
    (((crawlSiteLoop host r pages).emails.map (fun e => e.email)).Nodup ∧
     ∀ e ∈ (crawlSiteLoop host r pages).emails, emailAggOk host e) := by
  induction pages with
  | nil => intro r hn hP; exact ⟨hn, hP⟩
  | cons p t ih =>
    intro r hn hP
    cases hcu : crawlUrlModel p.2 with
    | none =>
      simp only [crawlSiteLoop, List.foldl_cons, hcu]
      exact ih r hn hP
    | some page =>
      simp only [crawlSiteLoop, List.foldl_cons, hcu]
      have h := foldl_mergeEmail_inv host page.emails r.emails hn hP
      exact ih (mergePage host r p.1 page) h.1 h.2

/-- C7: over any site crawl from the initial empty map, the aggregated
email keys are pairwise distinct; every stored entry keeps its first-time
classification and its confidence equals an integer score in [0, 100]
divided by 100, hence lies in [0, 1]; and merging an already-known email
only appends to that entry's `sources`, changing no type or confidence. -/
theorem C7_aggregation_invariants (host companyName rootUrl : String)
    (pages : List (String × UrlOutcome)) (m : List EmailAgg)
    (item : CleanedEmail) :
    (((crawlSiteLoop host (initSiteResult companyName rootUrl host)
        pages).emails.map (fun e => e.email)).Nodup) ∧
    (∀ e ∈ (crawlSiteLoop host (initSiteResult companyName rootUrl host)
        pages).emails,
      e.emailType = classifyEmail e.email host ∧
      (∃ s : Int, 0 ≤ s ∧ s ≤ 100 ∧ e.confidence = (s : ℚ) / 100) ∧
      0 ≤ e.confidence ∧ e.confidence ≤ 1) ∧
    (item.email ∈ m.map (fun e => e.email) →
      mergeEmail host m item = m.map (fun e =>
        if e.email == item.email then
          { e with sources := e.sources ++ [item.source] }
        else e)) := by
  have hinv := crawlSiteLoop_email_inv host pages
    (initSiteResult companyName rootUrl host) (by simp [initSiteResult])
    (by intro e he; simp [initSiteResult] at he)
  refine ⟨hinv.1, ?_, ?_⟩
  · intro e he
    obtain ⟨htype, hconf⟩ := hinv.2 e he
    have hb := scoreEmail_bounds e.email e.emailType host
    refine ⟨htype, ⟨scoreEmail e.email e.emailType host, hb.1, hb.2, hconf⟩, ?_, ?_⟩
    · rw [hconf]
      apply div_nonneg
      · exact_mod_cast hb.1
      · norm_num
    · rw [hconf]
      rw [div_le_one (by norm_num : (0:ℚ) < 100)]
      exact_mod_cast hb.2
  · intro hmem
    obtain ⟨a, ha, hae⟩ := List.mem_map.mp hmem
    have hcond : (m.any (fun e => e.email == item.email)) = true := by
      rw [List.any_eq_true]
      exact ⟨a, ha, by rw [beq_iff_eq, hae]⟩
    unfold mergeEmail
    rw [if_pos hcond]

/-- C7 witness: re-seeing `info@a.se` (now from an inline match) only
appends to `sources`; type and confidence stay as first computed. -/
theorem C7_witness :
    ("info@a.se" ∈ ([⟨"info@a.se", EmailType.role, 3/5, ["mailto"], "mailto"⟩] :
        List EmailAgg).map (fun e => e.email)) ∧
    mergeEmail "a.se" [⟨"info@a.se", EmailType.role, 3/5, ["mailto"], "mailto"⟩]
        ⟨"info@a.se", "inline", 1/2⟩
      = [⟨"info@a.se", EmailType.role, 3/5, ["mailto", "inline"], "mailto"⟩] := by
  have hmem : "info@a.se" ∈ ([⟨"info@a.se", EmailType.role, 3/5, ["mailto"], "mailto"⟩] :
      List EmailAgg).map (fun e => e.email) := by
    simp
  refine ⟨hmem, ?_⟩
  have h := (C7_aggregation_invariants "a.se" "A" "https://a.se" []
    [⟨"info@a.se", EmailType.role, 3/5, ["mailto"], "mailto"⟩]
    ⟨"info@a.se", "inline", 1/2⟩).2.2 hmem
  rw [h]
  rfl

/-- C6 witness: the pipeline applied to concrete items — the surviving
entry for `info@acme.se` passes every gate, and a duplicate (differing
only by case and padding) is removed. -/
theorem C6_witness :
    emailGatesOk (fun _ => true) "info@acme.se" ∧
    ((cleanEmails (fun _ => true)
      [.str " Info@Acme.se ", .str "info@acme.se"]).map
      (fun c => c.email)).Nodup := by
  have hmem : (⟨"info@acme.se", "unknown", 1/2⟩ : CleanedEmail) ∈
      cleanEmails (fun _ => true) [.str "info@acme.se"] := by
    show (⟨"info@acme.se", "unknown", 1/2⟩ : CleanedEmail) ∈
      [(⟨"info@acme.se", "unknown", 1/2⟩ : CleanedEmail)]
    exact List.mem_singleton.mpr rfl
  exact ⟨((C6_cleaning_pipeline (fun _ => true) [.str "info@acme.se"]).1 _ hmem).2,
    (C6_cleaning_pipeline (fun _ => true)
      [.str " Info@Acme.se ", .str "info@acme.se"]).2⟩
